import Mathlib

/-!
Shallow embedding of the finance-tracker backend (`src/backend/main.py`):
the SQLite-backed ledger store for transactions and budget goals, the
financial-summary computation, the spending-trend analytics and the
budget-performance analytics, together with theorems checking the
natural-language specification against this embedding.

Modelling conventions:
* SQLite `REAL` amounts are modelled as `ℚ` (exact arithmetic; the claims
  under study are about guards and aggregation structure, not rounding).
* A SQLite table with `INTEGER PRIMARY KEY AUTOINCREMENT` is a list of rows
  plus a `next_id` counter; rows are appended in insertion (rowid) order.
* `DATE` columns are calendar dates `(year, month, day)`; SQLite compares
  the zero-padded strings `YYYY-MM-DD`, which is the lexicographic order on
  the three fields. `TIMESTAMP DEFAULT CURRENT_TIMESTAMP` is an abstract
  monotone clock value (`Nat`) supplied by the caller.
* A Python `dict` built by repeated `d[k] = v` is an association list with
  unique keys: `dictInsert` overwrites the first binding of `k` in place or
  appends a new binding at the end, exactly like a Python dict preserves
  insertion order.
* The external clock (`datetime.now()`, SQLite `date('now', ...)`) is an
  injected parameter: functions take the current month/year or the computed
  cutoff dates as arguments.
-/

namespace FinanceTracker

/-- The `TransactionType(str, Enum)` with values `"income"` and `"expense"`. -/
inductive TransactionType where
  | income
  | expense
  deriving DecidableEq, Repr

/-- A calendar date as stored in the `DATE` column (`YYYY-MM-DD`). -/
structure CalDate where
  year : Nat
  month : Nat
  day : Nat
  deriving DecidableEq, Repr

/-- SQLite comparison `date1 <= date2` on `YYYY-MM-DD` strings:
lexicographic on (year, month, day). -/
def CalDate.le (a b : CalDate) : Bool :=
  decide (a.year < b.year) ||
    (decide (a.year = b.year) &&
      (decide (a.month < b.month) ||
        (decide (a.month = b.month) && decide (a.day ≤ b.day))))

/-- SQLite comparison `date1 < date2` on `YYYY-MM-DD` strings. -/
def CalDate.lt (a b : CalDate) : Bool :=
  decide (a.year < b.year) ||
    (decide (a.year = b.year) &&
      (decide (a.month < b.month) ||
        (decide (a.month = b.month) && decide (a.day < b.day))))

/-- A row of the `transactions` table (`init_database`): id, user_id, type,
category, amount, description, date, created_at. -/
structure TxRow where
  id : Nat
  user_id : String
  type : TransactionType
  category : String
  amount : ℚ
  description : Option String
  date : CalDate
  created_at : Nat
  deriving DecidableEq, Repr

/-- The `transactions` table: rows in rowid order plus the autoincrement
counter (`INTEGER PRIMARY KEY AUTOINCREMENT`). -/
structure TxStore where
  rows : List TxRow
  next_id : Nat
  deriving DecidableEq, Repr

/-- The raw request body of `POST /transactions/` before Pydantic
validation: `type` is still an arbitrary string. -/
structure RawTransaction where
  type : String
  category : String
  amount : ℚ
  description : Option String
  date : CalDate
  deriving DecidableEq, Repr

/-- The validated Pydantic `Transaction` model. -/
structure Transaction where
  type : TransactionType
  category : String
  amount : ℚ
  description : Option String
  date : CalDate
  deriving DecidableEq, Repr

/-- Pydantic validation of the `Transaction` model: `type: TransactionType`
restricts the string to `"income"`/`"expense"` (anything else is a 422
validation error); the remaining fields — in particular `amount: float` —
carry no constraint, so any rational amount is accepted. -/
def validate_transaction (raw : RawTransaction) : Except String Transaction :=
  if raw.type = "income" then
    .ok ⟨.income, raw.category, raw.amount, raw.description, raw.date⟩
  else if raw.type = "expense" then
    .ok ⟨.expense, raw.category, raw.amount, raw.description, raw.date⟩
  else
    .error "ValidationError"

/-- `create_transaction`: INSERT the row with a fresh autoincrement id and
`created_at = CURRENT_TIMESTAMP` (the injected `now`); returns
`cursor.lastrowid` and the updated table. -/
def create_transaction (tx : Transaction) (user_id : String) (now : Nat)
    (s : TxStore) : Nat × TxStore :=
  (s.next_id,
   ⟨s.rows ++ [⟨s.next_id, user_id, tx.type, tx.category, tx.amount,
               tx.description, tx.date, now⟩],
    s.next_id + 1⟩)

/-- The `POST /transactions/` pipeline: Pydantic validation of the body
followed by `create_transaction`. On a validation error the handler is
never entered and the store is untouched. -/
def insert_transaction (raw : RawTransaction) (user_id : String) (now : Nat)
    (s : TxStore) : Except String (Nat × TxStore) :=
  match validate_transaction raw with
  | .error e => .error e
  | .ok tx => .ok (create_transaction tx user_id now s)

/-- The `ORDER BY date DESC, created_at DESC` comparison used by
`get_transactions`: `a` sorts no later than `b`. -/
def txOrder (a b : TxRow) : Bool :=
  CalDate.lt b.date a.date ||
    (decide (a.date = b.date) && decide (b.created_at ≤ a.created_at))

/-- `get_transactions(user_id, limit)`: SELECT rows of the owner, ORDER BY
date DESC, created_at DESC, LIMIT `limit` (the endpoint default is 100). -/
def get_transactions (s : TxStore) (user_id : String) (limit : Nat) :
    List TxRow :=
  ((s.rows.filter (fun t => decide (t.user_id = user_id))).mergeSort
    txOrder).take limit

/-- The `DELETE /transactions/{id}` handler: DELETE WHERE id = ?; when
`cursor.rowcount == 0` it raises 404 "Transaction not found" (before any
commit), otherwise it commits the deletion. -/
def delete_transaction (tid : Nat) (s : TxStore) : Except String TxStore :=
  let remaining := s.rows.filter (fun t => decide (t.id ≠ tid))
  if remaining.length = s.rows.length then .error "NotFound"
  else .ok ⟨remaining, s.next_id⟩

/-! ### Python dicts as association lists -/

/-- `d.get(k)`: first binding of `k`, if any. -/
def dictGet {K V : Type} [DecidableEq K] (d : List (K × V)) (k : K) :
    Option V :=
  match d with
  | [] => none
  | (k', v) :: rest => if k' = k then some v else dictGet rest k

/-- `d[k] = v`: overwrite the binding of `k` in place, or append it. -/
def dictInsert {K V : Type} [DecidableEq K] (d : List (K × V)) (k : K)
    (v : V) : List (K × V) :=
  match d with
  | [] => [(k, v)]
  | (k', v') :: rest =>
      if k' = k then (k, v) :: rest else (k', v') :: dictInsert rest k v

/-- The keys of a dict, in order. -/
def dictKeys {K V : Type} (d : List (K × V)) : List K :=
  d.map (fun p => p.1)

/-- `sum(d.values())` for a numeric-valued dict. -/
def valSum (d : List (String × ℚ)) : ℚ :=
  (d.map (fun p => p.2)).sum

/-! ### `calculate_financial_summary` -/

/-- `sum(t['amount'] for t in transactions if t['type'] == 'income')`. -/
def total_income (ts : List TxRow) : ℚ :=
  ((ts.filter (fun t => decide (t.type = TransactionType.income))).map
    (fun t => t.amount)).sum

/-- `sum(t['amount'] for t in transactions if t['type'] == 'expense')`. -/
def total_expenses (ts : List TxRow) : ℚ :=
  ((ts.filter (fun t => decide (t.type = TransactionType.expense))).map
    (fun t => t.amount)).sum

/-- The `for t in transactions: if expense: d[cat] = d.get(cat, 0) + amt`
loop of `calculate_financial_summary`, with explicit accumulator. -/
def expenses_by_category_loop (acc : List (String × ℚ)) :
    List TxRow → List (String × ℚ)
  | [] => acc
  | t :: ts =>
      expenses_by_category_loop
        (if t.type = TransactionType.expense then
          dictInsert acc t.category ((dictGet acc t.category).getD 0 + t.amount)
        else acc) ts

/-- The `expenses_by_category` dict of `calculate_financial_summary`. -/
def expenses_by_category (ts : List TxRow) : List (String × ℚ) :=
  expenses_by_category_loop [] ts

/-- The `FinancialSummary` Pydantic model. -/
structure FinancialSummary where
  total_income : ℚ
  total_expenses : ℚ
  net_balance : ℚ
  expenses_by_category : List (String × ℚ)
  savings_rate : ℚ
  deriving DecidableEq, Repr

/-- `calculate_financial_summary(transactions)`. -/
def calculate_financial_summary (ts : List TxRow) : FinancialSummary :=
  let ti := total_income ts
  let te := total_expenses ts
  let nb := ti - te
  ⟨ti, te, nb, expenses_by_category ts, if ti > 0 then nb / ti * 100 else 0⟩

/-! ### Budget goals -/

/-- A row of the `budget_goals` table: id, user_id, category, amount,
month, year, with `UNIQUE(user_id, category, month, year)`. -/
structure GoalRow where
  id : Nat
  user_id : String
  category : String
  amount : ℚ
  month : Nat
  year : Nat
  deriving DecidableEq, Repr

/-- The `budget_goals` table: rows in rowid order plus the autoincrement
counter. -/
structure GoalStore where
  rows : List GoalRow
  next_id : Nat
  deriving DecidableEq, Repr

/-- The Pydantic `BudgetGoal` input model. -/
structure BudgetGoal where
  category : String
  amount : ℚ
  month : Nat
  year : Nat
  deriving DecidableEq, Repr

/-- Whether a row matches the `UNIQUE(user_id, category, month, year)`
key. -/
def goalKeyMatch (g : GoalRow) (user_id category : String)
    (month year : Nat) : Bool :=
  decide (g.user_id = user_id) && decide (g.category = category) &&
    decide (g.month = month) && decide (g.year = year)

/-- `set_budget_goal`: `INSERT OR REPLACE` honouring the UNIQUE key —
SQLite deletes every row that would violate the constraint and inserts the
new row under a fresh `AUTOINCREMENT` id (never reusing an id). -/
def set_budget_goal (goal : BudgetGoal) (user_id : String) (s : GoalStore) :
    GoalStore :=
  ⟨(s.rows.filter
      (fun g => !goalKeyMatch g user_id goal.category goal.month goal.year)) ++
     [⟨s.next_id, user_id, goal.category, goal.amount, goal.month, goal.year⟩],
   s.next_id + 1⟩

/-- `get_budget_goals(user_id, month, year)`: when both `month` and `year`
are supplied and truthy (Python `if month and year:`, so 0 counts as
absent), filter by user and period; otherwise return all of the user's
goals. -/
def get_budget_goals (s : GoalStore) (user_id : String)
    (month year : Option Nat) : List GoalRow :=
  match month, year with
  | some m, some y =>
      if m = 0 ∨ y = 0 then
        s.rows.filter (fun g => decide (g.user_id = user_id))
      else
        s.rows.filter (fun g =>
          decide (g.user_id = user_id) && decide (g.month = m) &&
            decide (g.year = y))
  | _, _ => s.rows.filter (fun g => decide (g.user_id = user_id))

/-! ### Budget performance analytics -/

/-- A generic `d[k] = d.get(k, 0) + amount` grouping loop: the model of the
SQL `SELECT category, SUM(amount) ... GROUP BY category` result turned into
a Python dict. -/
def sum_by_category_loop (acc : List (String × ℚ)) :
    List TxRow → List (String × ℚ)
  | [] => acc
  | t :: ts =>
      sum_by_category_loop
        (dictInsert acc t.category ((dictGet acc t.category).getD 0 + t.amount))
        ts

/-- The WHERE clause of the actual-spending query: expenses whose
`strftime('%m')`/`strftime('%Y')` match the period. No `user_id` filter. -/
def period_expense_rows (month year : Nat) (s : TxStore) : List TxRow :=
  s.rows.filter (fun t =>
    decide (t.type = TransactionType.expense) &&
      decide (t.date.month = month) && decide (t.date.year = year))

/-- The `actual_spending` dict of `get_budget_performance`: expenses of the
given month/year (all users — the query has no `user_id` filter), grouped
by category with summed amounts. -/
def actual_spending (month year : Nat) (s : TxStore) : List (String × ℚ) :=
  sum_by_category_loop [] (period_expense_rows month year s)

/-- The `budget_dict` comprehension
`{goal['category']: goal['amount'] for goal in budget_goals}`. -/
def budget_dict_loop (acc : List (String × ℚ)) :
    List GoalRow → List (String × ℚ)
  | [] => acc
  | g :: gs => budget_dict_loop (dictInsert acc g.category g.amount) gs

/-- One entry of the `budget_performance` list. -/
structure PerformanceEntry where
  category : String
  budget : ℚ
  actual : ℚ
  difference : ℚ
  percentage_used : ℚ
  status : String
  deriving DecidableEq, Repr

/-- The per-category entry computed inside the
`for category, budget in budget_dict.items()` loop. -/
def performance_entry (category : String) (budget actual : ℚ) :
    PerformanceEntry :=
  ⟨category, budget, actual, budget - actual,
   if budget > 0 then actual / budget * 100 else 0,
   if actual > budget then "over_budget" else "within_budget"⟩

/-- The `budget_performance` list: one entry per item of `budget_dict`,
with `actual = actual_spending.get(category, 0)`. -/
def budget_performance_list (bd asd : List (String × ℚ)) :
    List PerformanceEntry :=
  bd.map (fun p => performance_entry p.1 p.2 ((dictGet asd p.1).getD 0))

/-- The response of `GET /analytics/budget-performance/`. -/
structure BudgetPerformanceReport where
  budget_performance : List PerformanceEntry
  total_budget : ℚ
  total_spent : ℚ
  overall_status : String
  deriving DecidableEq, Repr

/-- `get_budget_performance` for an injected current month/year: budget
goals are fetched for the endpoint's user (the code's `default_user`),
actual spending is grouped over all expense rows of the period, and the
aggregate totals and overall status are derived. -/
def get_budget_performance (month year : Nat) (gs : GoalStore) (ts : TxStore)
    (user_id : String) : BudgetPerformanceReport :=
  let bd := budget_dict_loop []
    (get_budget_goals gs user_id (some month) (some year))
  let asd := actual_spending month year ts
  ⟨budget_performance_list bd asd, valSum bd, valSum asd,
   if valSum asd ≤ valSum bd then "within_budget" else "over_budget"⟩

/-! ### Spending-trend analytics -/

/-- `strftime('%w', date)`: day of week with 0 = Sunday, via Sakamoto's
congruence (valid for proleptic Gregorian dates). -/
def day_of_week (d : CalDate) : Nat :=
  let t := [0, 3, 2, 5, 0, 3, 5, 1, 4, 6, 2, 4]
  let y := if d.month < 3 then d.year - 1 else d.year
  (y + y / 4 - y / 100 + y / 400 + t.getD (d.month - 1) 0 + d.day) % 7

/-- One row of `monthly_trends`: the `strftime('%Y-%m', date)` key as a
(year, month) pair with the two `SUM(CASE ...)` aggregates. -/
structure MonthlyTrend where
  month : Nat × Nat
  income : ℚ
  expenses : ℚ
  deriving DecidableEq, Repr

/-- One row of `category_trends`: SUM, COUNT and AVG per category. -/
structure CategoryTrend where
  category : String
  total_amount : ℚ
  transaction_count : Nat
  avg_amount : ℚ
  deriving DecidableEq, Repr

/-- One row of `daily_patterns`: AVG(amount) per `strftime('%w')` key. -/
structure DailyPattern where
  day_of_week : Nat
  avg_spending : ℚ
  deriving DecidableEq, Repr

/-- The response of `GET /analytics/spending-trends/`. -/
structure SpendingTrends where
  monthly_trends : List MonthlyTrend
  category_trends : List CategoryTrend
  daily_patterns : List DailyPattern
  deriving DecidableEq, Repr

/-- GROUP BY `strftime('%Y-%m', date)` accumulating
`(SUM(CASE income), SUM(CASE expense))`. -/
def monthly_loop (acc : List ((Nat × Nat) × (ℚ × ℚ))) :
    List TxRow → List ((Nat × Nat) × (ℚ × ℚ))
  | [] => acc
  | t :: ts =>
      monthly_loop
        (dictInsert acc (t.date.year, t.date.month)
          (((dictGet acc (t.date.year, t.date.month)).getD (0, 0)).1 +
             (if t.type = TransactionType.income then t.amount else 0),
           ((dictGet acc (t.date.year, t.date.month)).getD (0, 0)).2 +
             (if t.type = TransactionType.expense then t.amount else 0)))
        ts

/-- `ORDER BY month` on the `'YYYY-%m'` string keys: ascending
lexicographic on (year, month). -/
def monthKeyLe (a b : (Nat × Nat) × (ℚ × ℚ)) : Bool :=
  decide (a.1.1 < b.1.1) ||
    (decide (a.1.1 = b.1.1) && decide (a.1.2 ≤ b.1.2))

/-- The `monthly_trends` query over transactions with
`date >= date('now', '-6 months')` (cutoff injected). No user filter. -/
def monthly_trends (cutoff6 : CalDate) (rows : List TxRow) :
    List MonthlyTrend :=
  ((monthly_loop [] (rows.filter (fun t => CalDate.le cutoff6 t.date))).mergeSort
    monthKeyLe).map (fun p => ⟨p.1, p.2.1, p.2.2⟩)

/-- GROUP BY category accumulating `(SUM(amount), COUNT(*))`. -/
def category_loop (acc : List (String × (ℚ × Nat))) :
    List TxRow → List (String × (ℚ × Nat))
  | [] => acc
  | t :: ts =>
      category_loop
        (dictInsert acc t.category
          (((dictGet acc t.category).getD (0, 0)).1 + t.amount,
           ((dictGet acc t.category).getD (0, 0)).2 + 1))
        ts

/-- `ORDER BY total_amount DESC`. -/
def categoryKeyLe (a b : String × (ℚ × Nat)) : Bool :=
  decide (b.2.1 ≤ a.2.1)

/-- The `category_trends` query: expenses with
`date >= date('now', '-30 days')` (cutoff injected), grouped by category;
`avg_amount = AVG(amount) = SUM / COUNT`. No user filter. -/
def category_trends (cutoff30 : CalDate) (rows : List TxRow) :
    List CategoryTrend :=
  ((category_loop [] (rows.filter (fun t =>
      decide (t.type = TransactionType.expense) &&
        CalDate.le cutoff30 t.date))).mergeSort categoryKeyLe).map
    (fun p => ⟨p.1, p.2.1, p.2.2, p.2.1 / (p.2.2 : ℚ)⟩)

/-- GROUP BY `strftime('%w', date)` accumulating `(SUM(amount), COUNT(*))`
for the AVG. -/
def daily_loop (acc : List (Nat × (ℚ × Nat))) :
    List TxRow → List (Nat × (ℚ × Nat))
  | [] => acc
  | t :: ts =>
      daily_loop
        (dictInsert acc (day_of_week t.date)
          (((dictGet acc (day_of_week t.date)).getD (0, 0)).1 + t.amount,
           ((dictGet acc (day_of_week t.date)).getD (0, 0)).2 + 1))
        ts

/-- `ORDER BY day_of_week` (ascending). -/
def dayKeyLe (a b : Nat × (ℚ × Nat)) : Bool :=
  decide (a.1 ≤ b.1)

/-- The `daily_patterns` query: expenses of the last 30 days grouped by
day-of-week with `avg_spending = AVG(amount)`. No user filter. -/
def daily_patterns (cutoff30 : CalDate) (rows : List TxRow) :
    List DailyPattern :=
  ((daily_loop [] (rows.filter (fun t =>
      decide (t.type = TransactionType.expense) &&
        CalDate.le cutoff30 t.date))).mergeSort dayKeyLe).map
    (fun p => ⟨p.1, p.2.1 / (p.2.2 : ℚ)⟩)

/-- `GET /analytics/spending-trends/` with the two SQLite cutoff dates
(`date('now','-6 months')`, `date('now','-30 days')`) injected. The three
queries read the whole `transactions` table: none filters by `user_id`. -/
def get_spending_trends (cutoff6 cutoff30 : CalDate) (s : TxStore) :
    SpendingTrends :=
  ⟨monthly_trends cutoff6 s.rows, category_trends cutoff30 s.rows,
   daily_patterns cutoff30 s.rows⟩

/-! ### Specification quantities used in theorem statements -/

/-- Sum of the amounts of the rows whose category is `c`. -/
def category_total (ts : List TxRow) (c : String) : ℚ :=
  ((ts.filter (fun t => decide (t.category = c))).map (fun t => t.amount)).sum

/-- Sum of the amounts of all rows. -/
def total_amount (ts : List TxRow) : ℚ :=
  (ts.map (fun t => t.amount)).sum

/-- The schema invariant of `budget_goals`: no two rows share the
`UNIQUE(user_id, category, month, year)` key. -/
def goals_unique (s : GoalStore) : Prop :=
  s.rows.Pairwise (fun a b =>
    ¬(a.user_id = b.user_id ∧ a.category = b.category ∧
      a.month = b.month ∧ a.year = b.year))

/-- The autoincrement invariant: every stored id is below the counter. -/
def ids_below (s : GoalStore) : Prop :=
  ∀ r ∈ s.rows, r.id < s.next_id

/-! ### Dict lemmas -/

theorem dictGet_dictInsert {K V : Type} [DecidableEq K] (d : List (K × V))
    (k k' : K) (v : V) :
    dictGet (dictInsert d k v) k' = if k = k' then some v else dictGet d k' := by
  induction d with
  | nil => simp [dictInsert, dictGet]
  | cons p rest ih =>
      obtain ⟨k₀, v₀⟩ := p
      by_cases h : k₀ = k
      · subst h
        by_cases h' : k₀ = k' <;> simp [dictInsert, dictGet, h']
      · by_cases h' : k₀ = k'
        · subst h'
          have : ¬k = k₀ := fun hh => h hh.symm
          simp [dictInsert, dictGet, h, this]
        · simp [dictInsert, dictGet, h, h', ih]

theorem valSum_dictInsert (d : List (String × ℚ)) (k : String) (v : ℚ) :
    valSum (dictInsert d k v) = valSum d + v - (dictGet d k).getD 0 := by
  induction d with
  | nil => simp [dictInsert, valSum, dictGet]
  | cons p rest ih =>
      obtain ⟨k₀, v₀⟩ := p
      by_cases h : k₀ = k
      · subst h
        simp [dictInsert, dictGet, valSum]
        ring
      · simp [dictInsert, dictGet, valSum, h] at *
        rw [ih]
        ring

theorem dictKeys_dictInsert {K V : Type} [DecidableEq K] (d : List (K × V))
    (k : K) (v : V) :
    dictKeys (dictInsert d k v) =
      if k ∈ dictKeys d then dictKeys d else dictKeys d ++ [k] := by
  induction d with
  | nil => simp [dictInsert, dictKeys]
  | cons p rest ih =>
      obtain ⟨k₀, v₀⟩ := p
      by_cases h : k₀ = k
      · subst h
        simp [dictInsert, dictKeys]
      · have h' : ¬k = k₀ := fun hh => h hh.symm
        by_cases hm : k ∈ dictKeys rest
        · simp only [dictKeys] at hm ih
          simp [dictInsert, dictKeys, h, h', hm, ih]
        · simp only [dictKeys] at hm ih
          simp [dictInsert, dictKeys, h, h', hm, ih]

theorem dictGet_eq_none_iff {K V : Type} [DecidableEq K] (d : List (K × V))
    (k : K) : dictGet d k = none ↔ k ∉ dictKeys d := by
  induction d with
  | nil => simp [dictGet, dictKeys]
  | cons p rest ih =>
      obtain ⟨k₀, v₀⟩ := p
      by_cases h : k₀ = k
      · subst h
        simp [dictGet, dictKeys]
      · have h' : ¬k = k₀ := fun hh => h hh.symm
        simp [dictGet, dictKeys, h, h', ih]

theorem nodup_dictKeys_dictInsert {K V : Type} [DecidableEq K]
    {d : List (K × V)} (h : (dictKeys d).Nodup) (k : K) (v : V) :
    (dictKeys (dictInsert d k v)).Nodup := by
  rw [dictKeys_dictInsert]
  by_cases hm : k ∈ dictKeys d
  · simpa [hm] using h
  · simp only [hm, if_false]
    rw [List.nodup_append]
    exact ⟨h, List.nodup_singleton k, by simpa using hm⟩

/-! ### Grouping-loop lemmas -/

theorem dictGet_sum_by_category_loop (ts : List TxRow) :
    ∀ (acc : List (String × ℚ)) (c : String),
      dictGet (sum_by_category_loop acc ts) c =
        match dictGet acc c with
        | some v => some (v + category_total ts c)
        | none =>
            if ts.any (fun t => decide (t.category = c)) then
              some (category_total ts c)
            else none := by
  induction ts with
  | nil =>
      intro acc c
      cases h : dictGet acc c <;> simp [sum_by_category_loop, category_total, h]
  | cons t ts ih =>
      intro acc c
      simp only [sum_by_category_loop]
      rw [ih]
      rw [dictGet_dictInsert]
      by_cases hc : t.category = c
      · subst hc
        have hct : category_total (t :: ts) t.category =
            t.amount + category_total ts t.category := by
          simp [category_total]
        cases h : dictGet acc t.category <;>
          simp [h, hct, List.any_cons] <;> ring
      · have hct : category_total (t :: ts) c = category_total ts c := by
          simp [category_total, hc]
        cases h : dictGet acc c <;>
          simp [h, hc, hct, List.any_cons]

theorem valSum_sum_by_category_loop (ts : List TxRow) :
    ∀ acc : List (String × ℚ),
      valSum (sum_by_category_loop acc ts) = valSum acc + total_amount ts := by
  induction ts with
  | nil => intro acc; simp [sum_by_category_loop, total_amount]
  | cons t ts ih =>
      intro acc
      simp only [sum_by_category_loop]
      rw [ih, valSum_dictInsert]
      simp [total_amount]
      ring

theorem nodup_dictKeys_sum_by_category_loop (ts : List TxRow) :
    ∀ acc : List (String × ℚ), (dictKeys acc).Nodup →
      (dictKeys (sum_by_category_loop acc ts)).Nodup := by
  induction ts with
  | nil => intro acc h; exact h
  | cons t ts ih =>
      intro acc h
      exact ih _ (nodup_dictKeys_dictInsert h _ _)

theorem expenses_by_category_loop_eq (ts : List TxRow) :
    ∀ acc : List (String × ℚ),
      expenses_by_category_loop acc ts =
        sum_by_category_loop acc
          (ts.filter (fun t => decide (t.type = TransactionType.expense))) := by
  induction ts with
  | nil => intro acc; rfl
  | cons t ts ih =>
      intro acc
      by_cases h : t.type = TransactionType.expense
      · simp [expenses_by_category_loop, sum_by_category_loop, h, ih]
      · simp [expenses_by_category_loop, sum_by_category_loop, h, ih]

/-- `actual_spending.get(category, 0)` is exactly the summed amount of the
period's expense rows in that category (0 when the category is absent). -/
theorem dictGet_actual_spending (month year : Nat) (s : TxStore) (c : String) :
    (dictGet (actual_spending month year s) c).getD 0 =
      category_total (period_expense_rows month year s) c := by
  rw [actual_spending, dictGet_sum_by_category_loop]
  simp only [dictGet]
  by_cases h : (period_expense_rows month year s).any
      (fun t => decide (t.category = c))
  · simp [h]
  · have : (period_expense_rows month year s).filter
        (fun t => decide (t.category = c)) = [] := by
      rw [List.filter_eq_nil_iff]
      intro a ha
      simp only [List.any_eq_true, not_exists, not_and] at h
      simpa using h a ha
    simp [h, category_total, this]

/-! ### Demo data (the spec's §8 scenario) -/

/-- The §8 scenario: income 1000, expenses 200 + 50 in category "food". -/
def demoTxs : List TxRow :=
  [⟨1, "default_user", .income, "salary", 1000, none, ⟨2024, 1, 5⟩, 1⟩,
   ⟨2, "default_user", .expense, "food", 200, none, ⟨2024, 1, 10⟩, 2⟩,
   ⟨3, "default_user", .expense, "food", 50, none, ⟨2024, 1, 20⟩, 3⟩]

/-! ### C4 -/

/-- C4: for every transaction set, `savings_rate` equals
`net_balance / total_income × 100` when `total_income > 0` and equals `0`
when `total_income = 0`; the zero case takes the guard's else-branch, so no
division is performed. -/
theorem savings_rate_spec (ts : List TxRow) :
    ((calculate_financial_summary ts).total_income > 0 →
      (calculate_financial_summary ts).savings_rate =
        (calculate_financial_summary ts).net_balance /
          (calculate_financial_summary ts).total_income * 100) ∧
    ((calculate_financial_summary ts).total_income = 0 →
      (calculate_financial_summary ts).savings_rate = 0) := by
  constructor
  · intro h
    simp only [calculate_financial_summary] at h ⊢
    rw [if_pos h]
  · intro h
    simp only [calculate_financial_summary] at h ⊢
    rw [if_neg (by rw [h]; exact lt_irrefl 0)]

/-- Witness for C4 at the §8 demo transactions and at the empty set. -/
theorem savings_rate_spec_witness :
    (calculate_financial_summary demoTxs).total_income > 0 ∧
    (calculate_financial_summary demoTxs).savings_rate =
      (calculate_financial_summary demoTxs).net_balance /
        (calculate_financial_summary demoTxs).total_income * 100 ∧
    (calculate_financial_summary []).total_income = 0 ∧
    (calculate_financial_summary []).savings_rate = 0 :=
  ⟨by simp [calculate_financial_summary, total_income, demoTxs, List.filter_cons],
   (savings_rate_spec demoTxs).1
     (by simp [calculate_financial_summary, total_income, demoTxs,
               List.filter_cons]),
   by simp [calculate_financial_summary, total_income],
   (savings_rate_spec []).2 (by simp [calculate_financial_summary, total_income])⟩

/-! ### C5 -/

/-- C5: `expenses_by_category` has no duplicate category, its keys are
exactly the categories with at least one expense, each key is mapped to the
sum of that category's expense amounts, and its values sum to
`total_expenses`. -/
theorem expenses_by_category_spec (ts : List TxRow) :
    (dictKeys (calculate_financial_summary ts).expenses_by_category).Nodup ∧
    (∀ c, c ∈ dictKeys (calculate_financial_summary ts).expenses_by_category ↔
      ∃ t ∈ ts, t.type = TransactionType.expense ∧ t.category = c) ∧
    (∀ c, c ∈ dictKeys (calculate_financial_summary ts).expenses_by_category →
      dictGet (calculate_financial_summary ts).expenses_by_category c =
        some (category_total
          (ts.filter (fun t => decide (t.type = TransactionType.expense))) c)) ∧
    valSum (calculate_financial_summary ts).expenses_by_category =
      (calculate_financial_summary ts).total_expenses := by
  have hE : (calculate_financial_summary ts).expenses_by_category =
      sum_by_category_loop []
        (ts.filter (fun t => decide (t.type = TransactionType.expense))) := by
    simp [calculate_financial_summary, expenses_by_category,
      expenses_by_category_loop_eq]
  have hget : ∀ c,
      dictGet (calculate_financial_summary ts).expenses_by_category c =
        if (ts.filter (fun t => decide (t.type = TransactionType.expense))).any
            (fun t => decide (t.category = c)) then
          some (category_total
            (ts.filter (fun t => decide (t.type = TransactionType.expense))) c)
        else none := by
    intro c
    rw [hE, dictGet_sum_by_category_loop]
    simp [dictGet]
  have hany : ∀ c,
      ((ts.filter (fun t => decide (t.type = TransactionType.expense))).any
        (fun t => decide (t.category = c)) = true) ↔
        ∃ t ∈ ts, t.type = TransactionType.expense ∧ t.category = c := by
    intro c
    simp [List.any_eq_true, List.mem_filter, and_assoc]
  refine ⟨?_, ?_, ?_, ?_⟩
  · rw [hE]
    exact nodup_dictKeys_sum_by_category_loop _ _ (by simp [dictKeys])
  · intro c
    have hnone := dictGet_eq_none_iff
      ((calculate_financial_summary ts).expenses_by_category) c
    rw [hget] at hnone
    by_cases h : (ts.filter (fun t => decide (t.type = TransactionType.expense))).any
        (fun t => decide (t.category = c))
    · rw [← hany c]
      simp only [h, if_true] at hnone
      simp only [h, iff_true]
      by_contra hc
      exact Option.some_ne_none _ (hnone.mpr hc)
    · rw [← hany c]
      simp only [h, if_false] at hnone
      simp only [Bool.not_eq_true] at h
      simp [h]
      exact hnone.mp rfl
  · intro c hc
    rw [hget]
    have hnone := dictGet_eq_none_iff
      ((calculate_financial_summary ts).expenses_by_category) c
    rw [hget] at hnone
    by_cases h : (ts.filter (fun t => decide (t.type = TransactionType.expense))).any
        (fun t => decide (t.category = c))
    · simp [h]
    · exfalso
      simp only [h, if_false] at hnone
      exact (hnone.mp rfl) hc
  · rw [hE, valSum_sum_by_category_loop]
    simp [valSum, calculate_financial_summary, total_expenses, total_amount]

/-- Witness for C5 at the §8 demo transactions and category "food". -/
theorem expenses_by_category_spec_witness :
    "food" ∈ dictKeys (calculate_financial_summary demoTxs).expenses_by_category ∧
    dictGet (calculate_financial_summary demoTxs).expenses_by_category "food" =
      some (category_total
        (demoTxs.filter (fun t => decide (t.type = TransactionType.expense)))
        "food") ∧
    valSum (calculate_financial_summary demoTxs).expenses_by_category =
      (calculate_financial_summary demoTxs).total_expenses :=
  ⟨by simp [calculate_financial_summary, expenses_by_category,
            expenses_by_category_loop, dictInsert, dictGet, dictKeys, demoTxs],
   (expenses_by_category_spec demoTxs).2.2.1 "food"
     (by simp [calculate_financial_summary, expenses_by_category,
               expenses_by_category_loop, dictInsert, dictGet, dictKeys,
               demoTxs]),
   (expenses_by_category_spec demoTxs).2.2.2⟩

/-! ### C1 -/

/-- C1 counterexample: a transaction with a negative amount is accepted —
`insert_transaction` returns an id and mutates the store instead of
failing with `ValidationError`, because the Pydantic model constrains only
the kind, not the amount. -/
theorem insert_negative_amount_accepted :
    (RawTransaction.mk "expense" "food" (-5) none ⟨2024, 1, 10⟩).amount < 0 ∧
    insert_transaction ⟨"expense", "food", -5, none, ⟨2024, 1, 10⟩⟩
        "default_user" 7 ⟨[], 1⟩ =
      .ok (1, ⟨[⟨1, "default_user", .expense, "food", -5, none,
                ⟨2024, 1, 10⟩, 7⟩], 2⟩) := by
  constructor
  · norm_num
  · rfl

/-- C1 (amended): `insert_transaction` validates only that the kind is
income or expense — an unknown kind fails with `ValidationError` and the
store is not mutated; any transaction with a valid kind, including one with
a negative amount, is assigned the next id and the server timestamp,
appended to the store, and its id is returned. -/
theorem insert_transaction_spec (raw : RawTransaction) (uid : String)
    (now : Nat) (s : TxStore) :
    (raw.type ≠ "income" ∧ raw.type ≠ "expense" →
      insert_transaction raw uid now s = .error "ValidationError") ∧
    (raw.type = "income" →
      insert_transaction raw uid now s =
        .ok (s.next_id, ⟨s.rows ++ [⟨s.next_id, uid, .income, raw.category,
          raw.amount, raw.description, raw.date, now⟩], s.next_id + 1⟩)) ∧
    (raw.type = "expense" →
      insert_transaction raw uid now s =
        .ok (s.next_id, ⟨s.rows ++ [⟨s.next_id, uid, .expense, raw.category,
          raw.amount, raw.description, raw.date, now⟩], s.next_id + 1⟩)) := by
  refine ⟨?_, ?_, ?_⟩
  · rintro ⟨h1, h2⟩
    simp [insert_transaction, validate_transaction, h1, h2]
  · intro h
    simp [insert_transaction, validate_transaction, h, create_transaction]
  · intro h
    have h' : raw.type ≠ "income" := by rw [h]; decide
    simp [insert_transaction, validate_transaction, h, h', create_transaction]

/-- Witness for the amended C1: an unknown kind is rejected with the store
untouched; a negative-amount expense is accepted and stored. -/
theorem insert_transaction_spec_witness :
    insert_transaction ⟨"gift", "food", 10, none, ⟨2024, 1, 10⟩⟩
        "default_user" 7 ⟨[], 1⟩ = .error "ValidationError" ∧
    insert_transaction ⟨"expense", "food", -5, none, ⟨2024, 1, 10⟩⟩
        "default_user" 7 ⟨[], 1⟩ =
      .ok (1, ⟨[⟨1, "default_user", .expense, "food", -5, none,
                ⟨2024, 1, 10⟩, 7⟩], 2⟩) :=
  ⟨(insert_transaction_spec ⟨"gift", "food", 10, none, ⟨2024, 1, 10⟩⟩
      "default_user" 7 ⟨[], 1⟩).1 (by constructor <;> decide),
   (insert_transaction_spec ⟨"expense", "food", -5, none, ⟨2024, 1, 10⟩⟩
      "default_user" 7 ⟨[], 1⟩).2.2 rfl⟩

/-! ### C2 -/

/-- C2: every entry of `budget_performance` carries
`actual = actual_spending.get(category, 0)` (equal to the period's summed
expenses in that category, 0 when absent), `difference = budget − actual`,
`percentage_used = actual/budget×100` when `budget > 0` and `0` when
`budget = 0` (no division failure), and status `"over_budget"` exactly when
`actual > budget`; moreover the entries cover exactly the budget-goal
mapping. -/
theorem budget_performance_entry_spec (month year : Nat) (gs : GoalStore)
    (ts : TxStore) (uid : String) :
    ((get_budget_performance month year gs ts uid).budget_performance.map
        (fun e => (e.category, e.budget)) =
      budget_dict_loop [] (get_budget_goals gs uid (some month) (some year))) ∧
    ∀ e ∈ (get_budget_performance month year gs ts uid).budget_performance,
      e.actual = category_total (period_expense_rows month year ts) e.category ∧
      e.difference = e.budget - e.actual ∧
      (e.budget > 0 → e.percentage_used = e.actual / e.budget * 100) ∧
      (e.budget = 0 → e.percentage_used = 0) ∧
      (e.status = "over_budget" ↔ e.actual > e.budget) ∧
      (e.status = "within_budget" ↔ e.actual ≤ e.budget) := by
  constructor
  · simp only [get_budget_performance, budget_performance_list, List.map_map]
    have hcomp : ((fun e : PerformanceEntry => (e.category, e.budget)) ∘
        fun p : String × ℚ => performance_entry p.1 p.2
          ((dictGet (actual_spending month year ts) p.1).getD 0)) =
        fun p => p := by
      funext p
      rfl
    rw [hcomp]
    simp
  · intro e he
    simp only [get_budget_performance, budget_performance_list,
      List.mem_map] at he
    obtain ⟨p, hp, rfl⟩ := he
    refine ⟨dictGet_actual_spending month year ts p.1, rfl, ?_, ?_, ?_, ?_⟩
    · intro h
      exact if_pos h
    · intro h
      have h' : p.2 = (0 : ℚ) := h
      exact if_neg (by rw [h']; exact lt_irrefl 0)
    · constructor
      · intro h
        by_cases hlt : p.2 < (dictGet (actual_spending month year ts) p.1).getD 0
        · exact hlt
        · exfalso
          have hs : (if p.2 < (dictGet (actual_spending month year ts) p.1).getD 0
              then "over_budget" else "within_budget") = "over_budget" := h
          rw [if_neg hlt] at hs
          exact absurd hs (by decide)
      · intro h
        exact if_pos h
    · constructor
      · intro h
        by_cases hlt : p.2 < (dictGet (actual_spending month year ts) p.1).getD 0
        · exfalso
          have hs : (if p.2 < (dictGet (actual_spending month year ts) p.1).getD 0
              then "over_budget" else "within_budget") = "within_budget" := h
          rw [if_pos hlt] at hs
          exact absurd hs (by decide)
        · exact not_lt.mp hlt
      · intro h
        exact if_neg (not_lt.mpr h)

/-- Witness for C2: a goal of 300 for "food" in 2024-01 against the demo
transactions (250 spent on food) yields the §8 scenario entry. -/
theorem budget_performance_entry_spec_witness :
    ∃ e ∈ (get_budget_performance 1 2024
        ⟨[⟨1, "default_user", "food", 300, 1, 2024⟩], 2⟩
        ⟨demoTxs, 4⟩ "default_user").budget_performance,
      e.actual = category_total (period_expense_rows 1 2024 ⟨demoTxs, 4⟩)
          e.category ∧
      e.difference = e.budget - e.actual ∧
      (e.budget > 0 → e.percentage_used = e.actual / e.budget * 100) ∧
      (e.budget = 0 → e.percentage_used = 0) ∧
      (e.status = "over_budget" ↔ e.actual > e.budget) ∧
      (e.status = "within_budget" ↔ e.actual ≤ e.budget) := by
  have h := (budget_performance_entry_spec 1 2024
    ⟨[⟨1, "default_user", "food", 300, 1, 2024⟩], 2⟩ ⟨demoTxs, 4⟩
    "default_user").2
  refine ⟨(get_budget_performance 1 2024
      ⟨[⟨1, "default_user", "food", 300, 1, 2024⟩], 2⟩ ⟨demoTxs, 4⟩
      "default_user").budget_performance.head (by
        simp [get_budget_performance, budget_performance_list,
          budget_dict_loop, get_budget_goals, dictInsert, demoTxs]), ?_, ?_⟩
  · exact List.head_mem _
  · exact h _ (List.head_mem _)

/-! ### C3 -/

theorem valSum_budget_dict_loop (goals : List GoalRow) :
    ∀ acc : List (String × ℚ),
      (goals.map (fun g => g.category)).Nodup →
      (∀ g ∈ goals, g.category ∉ dictKeys acc) →
      valSum (budget_dict_loop acc goals) =
        valSum acc + (goals.map (fun g => g.amount)).sum := by
  induction goals with
  | nil => intro acc _ _; simp [budget_dict_loop]
  | cons g rest ih =>
      intro acc hnd hdisj
      simp only [budget_dict_loop]
      have hg : g.category ∉ dictKeys acc := hdisj g (List.mem_cons_self g rest)
      have hget : dictGet acc g.category = none := (dictGet_eq_none_iff _ _).mpr hg
      have hnd0 : (∀ x ∈ rest, ¬x.category = g.category) ∧
          (rest.map (fun g => g.category)).Nodup := by simpa using hnd
      rw [ih _ hnd0.2 ?disj]
      · rw [valSum_dictInsert, hget]
        simp
        ring
      case disj =>
        intro g' hg'
        rw [dictKeys_dictInsert, if_neg hg]
        intro hin
        rcases List.mem_append.mp hin with hin | hin
        · exact hdisj g' (List.mem_cons_of_mem g hg') hin
        · rw [List.mem_singleton] at hin
          exact hnd0.1 g' hg' hin

theorem nodup_goal_categories (gs : GoalStore) (hu : goals_unique gs)
    (uid : String) (m y : Nat) (hm : m ≠ 0) (hy : y ≠ 0) :
    ((get_budget_goals gs uid (some m) (some y)).map
      (fun g => g.category)).Nodup := by
  rw [get_budget_goals, if_neg (by tauto)]
  have hp : (gs.rows.filter (fun g =>
      decide (g.user_id = uid) && decide (g.month = m) &&
        decide (g.year = y))).Pairwise (fun a b =>
      ¬(a.user_id = b.user_id ∧ a.category = b.category ∧
        a.month = b.month ∧ a.year = b.year)) :=
    List.Pairwise.filter _ hu
  have hp2 : (gs.rows.filter (fun g =>
      decide (g.user_id = uid) && decide (g.month = m) &&
        decide (g.year = y))).Pairwise (fun a b =>
      a.category ≠ b.category) := by
    refine hp.imp_of_mem ?_
    intro a b ha hb hr hcc
    rw [List.mem_filter] at ha hb
    obtain ⟨-, ha2⟩ := ha
    obtain ⟨-, hb2⟩ := hb
    simp only [Bool.and_eq_true, decide_eq_true_eq] at ha2 hb2
    exact hr ⟨ha2.1.1.trans hb2.1.1.symm, hcc,
      ha2.1.2.trans hb2.1.2.symm, ha2.2.trans hb2.2.symm⟩
  exact hp2.map _ (fun a b h => h)

/-- C3: in the budget-performance aggregate, `total_budget` is the sum of
the period's goal amounts (using the schema invariant that the period's
goals have pairwise-distinct categories), `total_spent` sums the amounts of
every expense row of the period — including categories with no goal — and
`overall_status` is `"over_budget"` exactly when
`total_spent > total_budget`. -/
theorem budget_performance_totals (month year : Nat) (gs : GoalStore)
    (ts : TxStore) (uid : String) (hm : month ≠ 0) (hy : year ≠ 0)
    (hu : goals_unique gs) :
    (get_budget_performance month year gs ts uid).total_budget =
      ((get_budget_goals gs uid (some month) (some year)).map
        (fun g => g.amount)).sum ∧
    (get_budget_performance month year gs ts uid).total_spent =
      total_amount (period_expense_rows month year ts) ∧
    ((get_budget_performance month year gs ts uid).overall_status =
        "over_budget" ↔
      (get_budget_performance month year gs ts uid).total_budget <
        (get_budget_performance month year gs ts uid).total_spent) ∧
    ((get_budget_performance month year gs ts uid).overall_status =
        "within_budget" ↔
      (get_budget_performance month year gs ts uid).total_spent ≤
        (get_budget_performance month year gs ts uid).total_budget) := by
  have htb : (get_budget_performance month year gs ts uid).total_budget =
      ((get_budget_goals gs uid (some month) (some year)).map
        (fun g => g.amount)).sum := by
    show valSum (budget_dict_loop [] _) = _
    rw [valSum_budget_dict_loop _ []
      (nodup_goal_categories gs hu uid month year hm hy)
      (by intro g _; simp [dictKeys])]
    simp [valSum]
  have hts : (get_budget_performance month year gs ts uid).total_spent =
      total_amount (period_expense_rows month year ts) := by
    show valSum (actual_spending month year ts) = _
    rw [actual_spending, valSum_sum_by_category_loop]
    simp [valSum]
  refine ⟨htb, hts, ?_, ?_⟩
  · show (if valSum (actual_spending month year ts) ≤
        valSum (budget_dict_loop [] _) then "within_budget"
        else "over_budget") = "over_budget" ↔ _
    by_cases h : valSum (actual_spending month year ts) ≤
        valSum (budget_dict_loop []
          (get_budget_goals gs uid (some month) (some year)))
    · rw [if_pos h]
      constructor
      · intro hh
        exact absurd hh (by decide)
      · intro hh
        exact absurd (not_lt.mpr h) (by exact fun hc => hc hh)
    · rw [if_neg h]
      simp only [true_iff]
      exact not_le.mp h
  · show (if valSum (actual_spending month year ts) ≤
        valSum (budget_dict_loop [] _) then "within_budget"
        else "over_budget") = "within_budget" ↔ _
    by_cases h : valSum (actual_spending month year ts) ≤
        valSum (budget_dict_loop []
          (get_budget_goals gs uid (some month) (some year)))
    · rw [if_pos h]
      simp only [true_iff]
      exact h
    · rw [if_neg h]
      constructor
      · intro hh
        exact absurd hh (by decide)
      · intro hh
        exact absurd hh h

/-- Witness for C3: one goal (food = 300) for 2024-01 plus a goal-less
category in the demo data. -/
theorem budget_performance_totals_witness :
    (get_budget_performance 1 2024
        ⟨[⟨1, "default_user", "food", 300, 1, 2024⟩], 2⟩
        ⟨demoTxs, 4⟩ "default_user").total_spent =
      total_amount (period_expense_rows 1 2024 ⟨demoTxs, 4⟩) ∧
    ((get_budget_performance 1 2024
        ⟨[⟨1, "default_user", "food", 300, 1, 2024⟩], 2⟩
        ⟨demoTxs, 4⟩ "default_user").overall_status = "within_budget" ↔
      (get_budget_performance 1 2024
        ⟨[⟨1, "default_user", "food", 300, 1, 2024⟩], 2⟩
        ⟨demoTxs, 4⟩ "default_user").total_spent ≤
        (get_budget_performance 1 2024
          ⟨[⟨1, "default_user", "food", 300, 1, 2024⟩], 2⟩
          ⟨demoTxs, 4⟩ "default_user").total_budget) :=
  ⟨(budget_performance_totals 1 2024
      ⟨[⟨1, "default_user", "food", 300, 1, 2024⟩], 2⟩ ⟨demoTxs, 4⟩
      "default_user" (by decide) (by decide)
      (by simp [goals_unique])).2.1,
   (budget_performance_totals 1 2024
      ⟨[⟨1, "default_user", "food", 300, 1, 2024⟩], 2⟩ ⟨demoTxs, 4⟩
      "default_user" (by decide) (by decide)
      (by simp [goals_unique])).2.2.2⟩

/-! ### C6 -/

/-- C6: a fresh store has at most one goal per
(owner, category, month, year) key, `set_budget_goal` preserves that
invariant, and upserting twice with the same key leaves exactly one
matching row, carrying the latest amount. -/
theorem budget_goal_upsert_unique :
    goals_unique ⟨[], 1⟩ ∧
    (∀ (g : BudgetGoal) (uid : String) (s : GoalStore),
      goals_unique s → goals_unique (set_budget_goal g uid s)) ∧
    (∀ (s : GoalStore) (uid c : String) (a₁ a₂ : ℚ) (m y : Nat),
      ((set_budget_goal ⟨c, a₂, m, y⟩ uid
          (set_budget_goal ⟨c, a₁, m, y⟩ uid s)).rows.filter
        (fun r => goalKeyMatch r uid c m y)).map (fun r => r.amount) =
        [a₂]) := by
  refine ⟨by simp [goals_unique], ?_, ?_⟩
  · intro g uid s hu
    show ((s.rows.filter _) ++ [_]).Pairwise _
    rw [List.pairwise_append]
    refine ⟨hu.filter _, List.pairwise_singleton _ _, ?_⟩
    intro a ha b hb
    rw [List.mem_filter] at ha
    rw [List.mem_singleton] at hb
    subst hb
    rintro ⟨h1, h2, h3, h4⟩
    simp only [] at h1 h2 h3 h4
    have hmatch : goalKeyMatch a uid g.category g.month g.year = true := by
      simp [goalKeyMatch, h1, h2, h3, h4]
    have := ha.2
    rw [hmatch] at this
    simp at this
  · intro s uid c a₁ a₂ m y
    simp only [set_budget_goal, List.filter_append, List.map_append,
      List.filter_filter]
    have h1 : ∀ l : List GoalRow,
        l.filter (fun r => goalKeyMatch r uid c m y &&
          !goalKeyMatch r uid c m y) = [] := by
      intro l
      rw [List.filter_eq_nil_iff]
      intro r _
      cases goalKeyMatch r uid c m y <;> simp
    rw [h1]
    simp [goalKeyMatch]

/-- Witness for C6: the invariant holds after one upsert into the empty
store, and a double upsert of "food" for 2024-01 leaves exactly one row
with the second amount. -/
theorem budget_goal_upsert_unique_witness :
    goals_unique (set_budget_goal ⟨"food", 300, 1, 2024⟩ "default_user"
      ⟨[], 1⟩) ∧
    ((set_budget_goal ⟨"food", 250, 1, 2024⟩ "default_user"
        (set_budget_goal ⟨"food", 300, 1, 2024⟩ "default_user"
          ⟨[], 1⟩)).rows.filter
      (fun r => goalKeyMatch r "default_user" "food" 1 2024)).map
        (fun r => r.amount) = [250] :=
  ⟨budget_goal_upsert_unique.2.1 ⟨"food", 300, 1, 2024⟩ "default_user"
      ⟨[], 1⟩ budget_goal_upsert_unique.1,
   budget_goal_upsert_unique.2.2 ⟨[], 1⟩ "default_user" "food" 300 250
      1 2024⟩

/-! ### C10 -/

/-- A store with one goal row for "food" 2024-01 under id 1. -/
def demoGoalStore : GoalStore :=
  ⟨[⟨1, "default_user", "food", 300, 1, 2024⟩], 2⟩

/-- C10: under the autoincrement invariant, upserting a goal with a
colliding key stores the replacement as a single matching row under the
fresh id `next_id`; every previously matching row had a strictly smaller id
and is gone from the store, so an overwrite changes the goal's id. -/
theorem upsert_replaces_id (s : GoalStore) (g : BudgetGoal) (uid : String)
    (hinv : ids_below s) :
    ids_below (set_budget_goal g uid s) ∧
    (set_budget_goal g uid s).rows.filter
        (fun r => goalKeyMatch r uid g.category g.month g.year) =
      [⟨s.next_id, uid, g.category, g.amount, g.month, g.year⟩] ∧
    ∀ r ∈ s.rows, goalKeyMatch r uid g.category g.month g.year = true →
      r.id < s.next_id ∧ r ∉ (set_budget_goal g uid s).rows := by
  refine ⟨?_, ?_, ?_⟩
  · intro r hr
    show r.id < s.next_id + 1
    rcases List.mem_append.mp hr with hr | hr
    · exact Nat.lt_succ_of_lt (hinv r (List.mem_of_mem_filter hr))
    · rw [List.mem_singleton] at hr
      subst hr
      exact Nat.lt_succ_self _
  · show ((s.rows.filter _) ++ [_]).filter _ = _
    rw [List.filter_append, List.filter_filter]
    have h1 : s.rows.filter (fun r =>
        goalKeyMatch r uid g.category g.month g.year &&
          !goalKeyMatch r uid g.category g.month g.year) = [] := by
      rw [List.filter_eq_nil_iff]
      intro r _
      cases goalKeyMatch r uid g.category g.month g.year <;> simp
    rw [h1]
    simp [goalKeyMatch]
  · intro r hr hmatch
    refine ⟨hinv r hr, ?_⟩
    intro hin
    rcases List.mem_append.mp hin with hin | hin
    · have := (List.mem_filter.mp hin).2
      rw [hmatch] at this
      simp at this
    · rw [List.mem_singleton] at hin
      have : r.id = s.next_id := by rw [hin]
      exact absurd this (Nat.ne_of_lt (hinv r hr))

/-- Witness for C10 at the one-row demo goal store. -/
theorem upsert_replaces_id_witness :
    ids_below (set_budget_goal ⟨"food", 250, 1, 2024⟩ "default_user"
      demoGoalStore) ∧
    (set_budget_goal ⟨"food", 250, 1, 2024⟩ "default_user"
        demoGoalStore).rows.filter
      (fun r => goalKeyMatch r "default_user" "food" 1 2024) =
      [⟨2, "default_user", "food", 250, 1, 2024⟩] :=
  ⟨(upsert_replaces_id demoGoalStore ⟨"food", 250, 1, 2024⟩ "default_user"
      (by simp [ids_below, demoGoalStore])).1,
   (upsert_replaces_id demoGoalStore ⟨"food", 250, 1, 2024⟩ "default_user"
      (by simp [ids_below, demoGoalStore])).2.1⟩

/-! ### C7 -/

/-- C7: `delete_transaction` reports whether a row with the id existed —
deleting a non-existent id yields NotFound with no row removed, and
deleting an existing id removes exactly the rows with that id, after which
a listing never returns a transaction with that id. -/
theorem delete_transaction_spec (s : TxStore) (tid : Nat) :
    ((∀ r ∈ s.rows, r.id ≠ tid) →
      delete_transaction tid s = .error "NotFound" ∧
      s.rows.filter (fun t => decide (t.id ≠ tid)) = s.rows) ∧
    ((∃ r ∈ s.rows, r.id = tid) →
      delete_transaction tid s =
        .ok ⟨s.rows.filter (fun t => decide (t.id ≠ tid)), s.next_id⟩ ∧
      ∀ uid lim t,
        t ∈ get_transactions
            ⟨s.rows.filter (fun t => decide (t.id ≠ tid)), s.next_id⟩ uid lim →
          t.id ≠ tid) := by
  constructor
  · intro h
    have hall : s.rows.filter (fun t => decide (t.id ≠ tid)) = s.rows :=
      List.filter_eq_self.mpr (fun a ha => by simpa using h a ha)
    refine ⟨?_, hall⟩
    show (if (s.rows.filter (fun t => decide (t.id ≠ tid))).length =
        s.rows.length then (Except.error "NotFound" : Except String TxStore)
      else .ok ⟨s.rows.filter (fun t => decide (t.id ≠ tid)), s.next_id⟩) =
        .error "NotFound"
    rw [hall, if_pos rfl]
  · rintro ⟨r, hr, hrid⟩
    have hne : (s.rows.filter (fun t => decide (t.id ≠ tid))).length ≠
        s.rows.length := by
      intro he
      have := List.filter_length_eq_length.mp he r hr
      simp [hrid] at this
    constructor
    · show (if (s.rows.filter (fun t => decide (t.id ≠ tid))).length =
          s.rows.length then (Except.error "NotFound" : Except String TxStore)
        else .ok ⟨s.rows.filter (fun t => decide (t.id ≠ tid)), s.next_id⟩) =
          .ok ⟨s.rows.filter (fun t => decide (t.id ≠ tid)), s.next_id⟩
      rw [if_neg hne]
    · intro uid lim t ht
      have h1 : t ∈ ((⟨s.rows.filter (fun t => decide (t.id ≠ tid)),
          s.next_id⟩ : TxStore)).rows := by
        have h2 := List.mem_of_mem_take ht
        rw [List.mem_mergeSort] at h2
        exact List.mem_of_mem_filter h2
      have h3 := (List.mem_filter.mp h1).2
      simpa using h3

/-- Witness for C7 at the demo transactions: deleting id 99 fails with
NotFound, deleting id 2 succeeds. -/
theorem delete_transaction_spec_witness :
    delete_transaction 99 ⟨demoTxs, 4⟩ = .error "NotFound" ∧
    delete_transaction 2 ⟨demoTxs, 4⟩ =
      .ok ⟨demoTxs.filter (fun t => decide (t.id ≠ 2)), 4⟩ :=
  ⟨((delete_transaction_spec ⟨demoTxs, 4⟩ 99).1 (by decide)).1,
   ((delete_transaction_spec ⟨demoTxs, 4⟩ 2).2
      ⟨⟨2, "default_user", .expense, "food", 200, none, ⟨2024, 1, 10⟩, 2⟩,
        by simp [demoTxs], rfl⟩).1⟩

/-! ### C8 -/

theorem calLt_iff (a b : CalDate) : CalDate.lt a b = true ↔
    a.year < b.year ∨ (a.year = b.year ∧
      (a.month < b.month ∨ (a.month = b.month ∧ a.day < b.day))) := by
  simp [CalDate.lt]

theorem calLt_asymm {a b : CalDate} (h : CalDate.lt a b = true) :
    ¬CalDate.lt b a = true := by
  rw [calLt_iff] at h ⊢
  rcases a with ⟨y1, m1, d1⟩
  rcases b with ⟨y2, m2, d2⟩
  simp only at h ⊢
  omega

theorem calLt_ne {a b : CalDate} (h : CalDate.lt a b = true) : a ≠ b := by
  rw [calLt_iff] at h
  rcases a with ⟨y1, m1, d1⟩
  rcases b with ⟨y2, m2, d2⟩
  simp only [ne_eq, CalDate.mk.injEq] at h ⊢
  omega

theorem txOrder_iff (a b : TxRow) : txOrder a b = true ↔
    CalDate.lt b.date a.date = true ∨
      (a.date = b.date ∧ b.created_at ≤ a.created_at) := by
  simp [txOrder]

theorem txOrder_trans (a b c : TxRow) :
    txOrder a b → txOrder b c → txOrder a c := by
  obtain ⟨ia, ua, ta, ca, aa, ea, da, ra⟩ := a
  obtain ⟨ib, ub, tb, cb, ab, eb, db, rb⟩ := b
  obtain ⟨ic, uc, tc, cc, ac, ec, dc, rc⟩ := c
  obtain ⟨y1, m1, d1⟩ := da
  obtain ⟨y2, m2, d2⟩ := db
  obtain ⟨y3, m3, d3⟩ := dc
  intro h1 h2
  rw [txOrder_iff, calLt_iff] at h1 h2 ⊢
  simp only [CalDate.mk.injEq] at h1 h2 ⊢
  omega

theorem txOrder_total (a b : TxRow) : (txOrder a b || txOrder b a) = true := by
  obtain ⟨ia, ua, ta, ca, aa, ea, da, ra⟩ := a
  obtain ⟨ib, ub, tb, cb, ab, eb, db, rb⟩ := b
  obtain ⟨y1, m1, d1⟩ := da
  obtain ⟨y2, m2, d2⟩ := db
  rw [Bool.or_eq_true, txOrder_iff, txOrder_iff, calLt_iff, calLt_iff]
  simp only [CalDate.mk.injEq]
  omega

/-- C8: `get_transactions` returns only the owner's stored rows, sorted by
occurred-on date descending with ties broken by recorded-at descending,
truncated to `limit`; it returns all of them when they fit in `limit`, and
a freshly inserted transaction with a strictly most recent date is listed
first whenever `limit ≥ 1`. -/
theorem list_transactions_spec (s : TxStore) (uid : String) (lim : Nat) :
    (get_transactions s uid lim).Pairwise (fun a b => txOrder a b = true) ∧
    (∀ t ∈ get_transactions s uid lim, t.user_id = uid ∧ t ∈ s.rows) ∧
    (get_transactions s uid lim).length =
      min lim (s.rows.filter (fun t => decide (t.user_id = uid))).length ∧
    ((s.rows.filter (fun t => decide (t.user_id = uid))).length ≤ lim →
      ∀ t ∈ s.rows, t.user_id = uid → t ∈ get_transactions s uid lim) ∧
    (∀ (tx : Transaction) (now : Nat),
      (∀ r ∈ s.rows, r.user_id = uid → CalDate.lt r.date tx.date = true) →
      1 ≤ lim →
      (get_transactions (create_transaction tx uid now s).2 uid lim).head? =
        some ⟨s.next_id, uid, tx.type, tx.category, tx.amount,
              tx.description, tx.date, now⟩) := by
  have hsorted : ∀ l : List TxRow,
      (l.mergeSort txOrder).Pairwise (fun a b => txOrder a b = true) :=
    fun l => List.sorted_mergeSort txOrder_trans txOrder_total l
  refine ⟨?_, ?_, ?_, ?_, ?_⟩
  · exact (hsorted _).sublist (List.take_sublist _ _)
  · intro t ht
    have h2 := List.mem_of_mem_take ht
    rw [List.mem_mergeSort] at h2
    have h3 := List.mem_filter.mp h2
    exact ⟨by simpa using h3.2, h3.1⟩
  · simp only [get_transactions]
    rw [List.length_take, List.length_mergeSort]
  · intro hle t ht hu
    simp only [get_transactions]
    rw [List.take_of_length_le (by rw [List.length_mergeSort]; exact hle)]
    rw [List.mem_mergeSort, List.mem_filter]
    exact ⟨ht, by simpa using hu⟩
  · intro tx now hdom hlim
    have hfil : (create_transaction tx uid now s).2.rows.filter
        (fun t => decide (t.user_id = uid)) =
        (s.rows.filter (fun t => decide (t.user_id = uid))) ++
          [⟨s.next_id, uid, tx.type, tx.category, tx.amount, tx.description,
            tx.date, now⟩] := by
      simp [create_transaction, List.filter_append]
    simp only [get_transactions]
    rw [hfil]
    have hmem : (⟨s.next_id, uid, tx.type, tx.category, tx.amount,
        tx.description, tx.date, now⟩ : TxRow) ∈
        ((s.rows.filter (fun t => decide (t.user_id = uid))) ++
          [(⟨s.next_id, uid, tx.type, tx.category, tx.amount, tx.description,
            tx.date, now⟩ : TxRow)]).mergeSort txOrder := by
      rw [List.mem_mergeSort]
      exact List.mem_append_right _ (by simp)
    cases hL : ((s.rows.filter (fun t => decide (t.user_id = uid))) ++
        [(⟨s.next_id, uid, tx.type, tx.category, tx.amount, tx.description,
          tx.date, now⟩ : TxRow)]).mergeSort txOrder with
    | nil =>
        rw [hL] at hmem
        simp at hmem
    | cons hd tl =>
        have hhd : hd = ⟨s.next_id, uid, tx.type, tx.category, tx.amount,
            tx.description, tx.date, now⟩ := by
          by_contra hne
          have hmem' : (⟨s.next_id, uid, tx.type, tx.category, tx.amount,
              tx.description, tx.date, now⟩ : TxRow) ∈ tl := by
            rw [hL] at hmem
            rcases List.mem_cons.mp hmem with h | h
            · exact absurd h.symm hne
            · exact h
          have hp := hsorted ((s.rows.filter
              (fun t => decide (t.user_id = uid))) ++
            [(⟨s.next_id, uid, tx.type, tx.category, tx.amount, tx.description,
              tx.date, now⟩ : TxRow)])
          rw [hL] at hp
          have hrel := (List.pairwise_cons.mp hp).1 _ hmem'
          have hdmem : hd ∈ s.rows.filter (fun t => decide (t.user_id = uid)) := by
            have hin : hd ∈ ((s.rows.filter (fun t => decide (t.user_id = uid))) ++
                [(⟨s.next_id, uid, tx.type, tx.category, tx.amount,
                  tx.description, tx.date, now⟩ : TxRow)]).mergeSort txOrder := by
              rw [hL]
              exact List.mem_cons_self hd tl
            rw [List.mem_mergeSort] at hin
            rcases List.mem_append.mp hin with h | h
            · exact h
            · rw [List.mem_singleton] at h
              exact absurd h hne
          have hdold := List.mem_filter.mp hdmem
          have hlt := hdom hd hdold.1 (by simpa using hdold.2)
          rw [txOrder_iff] at hrel
          rcases hrel with h | h
          · exact calLt_asymm hlt h
          · exact calLt_ne hlt h.1
        rw [hhd]
        cases lim with
        | zero => omega
        | succ n => simp

/-- Witness for C8: inserting an expense into the empty store and listing
with limit 1 returns it first. -/
theorem list_transactions_spec_witness :
    (get_transactions (create_transaction
        ⟨.expense, "food", 50, none, ⟨2024, 6, 15⟩⟩ "default_user" 0
        ⟨[], 1⟩).2 "default_user" 1).head? =
      some ⟨1, "default_user", .expense, "food", 50, none,
            ⟨2024, 6, 15⟩, 0⟩ :=
  (list_transactions_spec ⟨[], 1⟩ "default_user" 1).2.2.2.2
    ⟨.expense, "food", 50, none, ⟨2024, 6, 15⟩⟩ 0 (by simp) (le_refl 1)

/-! ### C9 -/

/-- Reassign every row's owner (all other fields unchanged). -/
def relabel (f : TxRow → String) (t : TxRow) : TxRow :=
  { t with user_id := f t }

theorem monthly_loop_relabel (f : TxRow → String) (l : List TxRow) :
    ∀ acc, monthly_loop acc (l.map (relabel f)) = monthly_loop acc l := by
  induction l with
  | nil => intro acc; rfl
  | cons t ts ih =>
      intro acc
      simp only [List.map_cons, monthly_loop]
      exact ih _

theorem category_loop_relabel (f : TxRow → String) (l : List TxRow) :
    ∀ acc, category_loop acc (l.map (relabel f)) = category_loop acc l := by
  induction l with
  | nil => intro acc; rfl
  | cons t ts ih =>
      intro acc
      simp only [List.map_cons, category_loop]
      exact ih _

theorem daily_loop_relabel (f : TxRow → String) (l : List TxRow) :
    ∀ acc, daily_loop acc (l.map (relabel f)) = daily_loop acc l := by
  induction l with
  | nil => intro acc; rfl
  | cons t ts ih =>
      intro acc
      simp only [List.map_cons, daily_loop]
      exact ih _

theorem sum_by_category_loop_relabel (f : TxRow → String) (l : List TxRow) :
    ∀ acc, sum_by_category_loop acc (l.map (relabel f)) =
      sum_by_category_loop acc l := by
  induction l with
  | nil => intro acc; rfl
  | cons t ts ih =>
      intro acc
      simp only [List.map_cons, sum_by_category_loop]
      exact ih _

/-- A transaction recorded under an owner other than the default user. -/
def foreignTx : TxRow :=
  ⟨1, "other_user", .expense, "food", 50, none, ⟨2024, 6, 15⟩, 0⟩

/-- C9: the spending-trend and budget-performance aggregations read the
transactions table with no `user_id` filter — the results are invariant
under arbitrary reassignment of every transaction's owner, and a
transaction recorded under a different user's id changes both the trend
results and the actual-spending total a caller sees, so these analytics are
not scoped to a single owner. -/
theorem analytics_not_owner_scoped :
    (∀ (f : TxRow → String) (c6 c30 : CalDate) (rows : List TxRow) (n : Nat),
      get_spending_trends c6 c30 ⟨rows.map (relabel f), n⟩ =
        get_spending_trends c6 c30 ⟨rows, n⟩) ∧
    (∀ (f : TxRow → String) (m y : Nat) (rows : List TxRow) (n : Nat),
      actual_spending m y ⟨rows.map (relabel f), n⟩ =
        actual_spending m y ⟨rows, n⟩) ∧
    foreignTx.user_id ≠ "default_user" ∧
    (get_spending_trends ⟨2024, 1, 1⟩ ⟨2024, 6, 1⟩
        ⟨[foreignTx], 2⟩).monthly_trends ≠
      (get_spending_trends ⟨2024, 1, 1⟩ ⟨2024, 6, 1⟩
        ⟨[], 1⟩).monthly_trends ∧
    (get_budget_performance 6 2024 ⟨[], 1⟩ ⟨[foreignTx], 2⟩
        "default_user").total_spent ≠
      (get_budget_performance 6 2024 ⟨[], 1⟩ ⟨[], 1⟩
        "default_user").total_spent := by
  refine ⟨?_, ?_, ?_, ?_, ?_⟩
  · intro f c6 c30 rows n
    simp only [get_spending_trends, monthly_trends, category_trends,
      daily_patterns, List.filter_map]
    have h1 : ((fun t => CalDate.le c6 t.date) ∘ relabel f) =
        fun t : TxRow => CalDate.le c6 t.date := rfl
    have h2 : ((fun t => decide (t.type = TransactionType.expense) &&
        CalDate.le c30 t.date) ∘ relabel f) =
        fun t : TxRow => decide (t.type = TransactionType.expense) &&
          CalDate.le c30 t.date := rfl
    rw [h1, h2]
    rw [monthly_loop_relabel, category_loop_relabel, daily_loop_relabel]
  · intro f m y rows n
    simp only [actual_spending, period_expense_rows, List.filter_map]
    have h1 : ((fun t => decide (t.type = TransactionType.expense) &&
        decide (t.date.month = m) && decide (t.date.year = y)) ∘ relabel f) =
        fun t : TxRow => decide (t.type = TransactionType.expense) &&
          decide (t.date.month = m) && decide (t.date.year = y) := rfl
    rw [h1, sum_by_category_loop_relabel]
  · decide
  · simp [get_spending_trends, monthly_trends, monthly_loop, dictGet,
      dictInsert, CalDate.le, foreignTx]
  · show valSum (actual_spending 6 2024 ⟨[foreignTx], 2⟩) ≠
      valSum (actual_spending 6 2024 ⟨[], 1⟩)
    simp [actual_spending, period_expense_rows, sum_by_category_loop,
      dictGet, dictInsert, valSum, foreignTx]

end FinanceTracker
